import Mathlib

/-!
# Verification of the S3-to-TimescaleDB aircraft migration pipeline

Shallow embedding of `src/migrate_to_timescaledb.py` (class
`S3ToTimescaleDBMigrator`): JSON values, timestamp parsing
(`parse_timestamp`), record transformation (`transform_record`),
batched idempotent writes (`batch_insert`), the per-file driver
(`migrate_files`), the loader (`load_json_file`) and the validator's
completeness report (`validate_migration`).

Modelling conventions:
* A decoded JSON value is `JVal`; JSON numbers are split into integers
  (`JVal.int`) and fractional numbers (`JVal.float`, carried as an exact
  rational — every decimal literal occurring in the data is exactly
  representable; non-finite floats such as `inf`/`nan` are outside the
  model).
* A Python `dict` record becomes an association list with distinct keys
  (JSON objects); `record.get(k)` is `RawRecord.getJ` / `RawRecord.lookup`.
* Python exceptions that escape a callee are `PyResult.exn`; code that
  catches them inspects the constructor.
* The database connection is a pure `Store` (list of rows, insertion
  order); a committed chunk appends its fresh-key rows; a failed chunk
  (`fail` oracle) is rolled back, leaving the store untouched, which is
  exactly `conn.rollback()` after a per-chunk `commit` discipline.
* `datetime.now()` is an explicit `now : DateTime` parameter.
-/

/-- A decoded JSON value (the result of `json.loads`). -/
inductive JVal where
  | null
  | bool (b : Bool)
  | int (n : Int)
  | float (q : Rat)
  | str (s : String)
  | arr (xs : List JVal)
  | obj (kvs : List (String × JVal))
deriving Repr

/-- A naive `datetime.datetime` (the code calls `replace(tzinfo=None)`,
so every datetime in play is naive and read as UTC). -/
structure DateTime where
  year : Nat
  month : Nat
  day : Nat
  hour : Nat
  minute : Nat
  second : Nat
  usec : Nat
deriving DecidableEq, Repr

/-- Result of running a piece of Python code: a value, or an uncaught
exception escaping to the caller. -/
inductive PyResult (α : Type) where
  | ok (a : α)
  | exn
deriving DecidableEq, Repr

/-- Python truthiness on decoded JSON values (`if not x`). -/
def jFalsy : JVal → Bool
  | .null => true
  | .bool b => !b
  | .int n => n == 0
  | .float q => q == 0
  | .str s => s.isEmpty
  | .arr xs => xs.isEmpty
  | .obj kvs => kvs.isEmpty

/-- `timestamp_str.replace('Z', '')`: every occurrence of `Z` is removed
(character-level model of `str.replace` with empty replacement). -/
def stripZ (cs : List Char) : List Char := cs.filter (fun c => c ≠ 'Z')

/-- Leap-year rule used by `datetime.date`. -/
def isLeap (y : Nat) : Bool := (y % 4 == 0 && y % 100 != 0) || y % 400 == 0

/-- Days in a month, as validated by the `datetime` constructor. -/
def daysInMonth (y m : Nat) : Nat :=
  if m == 2 then (if isLeap y then 29 else 28)
  else if m == 4 || m == 6 || m == 9 || m == 11 then 30
  else 31

/-- The `datetime` constructor's range validation (a violation raises
`ValueError`, modelled as `none`). -/
def mkDateTime (y mo d h mi s us : Nat) : Option DateTime :=
  if 1 ≤ y && y ≤ 9999 && 1 ≤ mo && mo ≤ 12 && 1 ≤ d && d ≤ daysInMonth y mo
      && h ≤ 23 && mi ≤ 59 && s ≤ 59 && us ≤ 999999 then
    some ⟨y, mo, d, h, mi, s, us⟩
  else none

/-- Numeric value of a decimal digit character. -/
def digitVal (c : Char) : Nat := c.toNat - 48

/-- `strptime` `%Y`: exactly four digits. -/
def read4 : List Char → Option (Nat × List Char)
  | c1 :: c2 :: c3 :: c4 :: cs =>
    if c1.isDigit && c2.isDigit && c3.isDigit && c4.isDigit then
      some (digitVal c1 * 1000 + digitVal c2 * 100 + digitVal c3 * 10 + digitVal c4, cs)
    else none
  | _ => none

/-- `strptime` one-or-two-digit numeric field (`%m`, `%d`, `%H`, `%M`,
`%S`): greedily take two digits when the two-digit value lies in
`[lo, hi]`, otherwise one digit in range — the deterministic reading of
CPython's ordered regex alternations for these directives. -/
def read12 (lo hi : Nat) : List Char → Option (Nat × List Char)
  | c1 :: c2 :: cs =>
    if c1.isDigit then
      if c2.isDigit then
        let v2 := digitVal c1 * 10 + digitVal c2
        if lo ≤ v2 && v2 ≤ hi then some (v2, cs)
        else
          let v1 := digitVal c1
          if lo ≤ v1 && v1 ≤ hi then some (v1, c2 :: cs) else none
      else
        let v1 := digitVal c1
        if lo ≤ v1 && v1 ≤ hi then some (v1, c2 :: cs) else none
    else none
  | [c1] =>
    if c1.isDigit then
      let v1 := digitVal c1
      if lo ≤ v1 && v1 ≤ hi then some (v1, []) else none
    else none
  | [] => none

/-- `strptime` `%f`: one to six digits, right-padded to microseconds. -/
def readMicro (cs : List Char) : Option (Nat × List Char) :=
  let digs := (cs.takeWhile Char.isDigit).take 6
  if digs.isEmpty then none
  else
    let v := digs.foldl (fun a c => a * 10 + digitVal c) 0
    some (v * 10 ^ (6 - digs.length), cs.drop digs.length)

/-- A literal character of the format string. -/
def lit (c : Char) : List Char → Option (List Char)
  | d :: cs => if d = c then some cs else none
  | [] => none

/-- `strptime(s, '%Y-%m-%dT%H:%M:%S.%fZ')`: note the format still
requires a literal trailing `Z`. -/
def parseFmtIsoMicroZ (cs : List Char) : Option DateTime := do
  let (y, cs) ← read4 cs
  let cs ← lit '-' cs
  let (mo, cs) ← read12 1 12 cs
  let cs ← lit '-' cs
  let (d, cs) ← read12 1 31 cs
  let cs ← lit 'T' cs
  let (h, cs) ← read12 0 23 cs
  let cs ← lit ':' cs
  let (mi, cs) ← read12 0 59 cs
  let cs ← lit ':' cs
  let (s, cs) ← read12 0 59 cs
  let cs ← lit '.' cs
  let (us, cs) ← readMicro cs
  let cs ← lit 'Z' cs
  if cs.isEmpty then mkDateTime y mo d h mi s us else none

/-- `strptime(s, '%Y-%m-%dT%H:%M:%SZ')`: requires a literal trailing `Z`. -/
def parseFmtIsoZ (cs : List Char) : Option DateTime := do
  let (y, cs) ← read4 cs
  let cs ← lit '-' cs
  let (mo, cs) ← read12 1 12 cs
  let cs ← lit '-' cs
  let (d, cs) ← read12 1 31 cs
  let cs ← lit 'T' cs
  let (h, cs) ← read12 0 23 cs
  let cs ← lit ':' cs
  let (mi, cs) ← read12 0 59 cs
  let cs ← lit ':' cs
  let (s, cs) ← read12 0 59 cs
  let cs ← lit 'Z' cs
  if cs.isEmpty then mkDateTime y mo d h mi s 0 else none

/-- `strptime(s, '%Y-%m-%d %H:%M:%S')`. -/
def parseFmtSpace (cs : List Char) : Option DateTime := do
  let (y, cs) ← read4 cs
  let cs ← lit '-' cs
  let (mo, cs) ← read12 1 12 cs
  let cs ← lit '-' cs
  let (d, cs) ← read12 1 31 cs
  let cs ← lit ' ' cs
  let (h, cs) ← read12 0 23 cs
  let cs ← lit ':' cs
  let (mi, cs) ← read12 0 59 cs
  let cs ← lit ':' cs
  let (s, cs) ← read12 0 59 cs
  if cs.isEmpty then mkDateTime y mo d h mi s 0 else none

/-- `strptime(s, '%Y%m%d_%H%M%S')`. -/
def parseFmtCompact (cs : List Char) : Option DateTime := do
  let (y, cs) ← read4 cs
  let (mo, cs) ← read12 1 12 cs
  let (d, cs) ← read12 1 31 cs
  let cs ← lit '_' cs
  let (h, cs) ← read12 0 23 cs
  let (mi, cs) ← read12 0 59 cs
  let (s, cs) ← read12 0 59 cs
  if cs.isEmpty then mkDateTime y mo d h mi s 0 else none

/-- The `for fmt in formats` loop: each `ValueError` is caught and the
next format is tried; `dt.replace(tzinfo=None)` is the identity on these
naive datetimes. -/
def tryFormats (cs : List Char) : Option DateTime :=
  match parseFmtIsoMicroZ cs with
  | some dt => some dt
  | none =>
    match parseFmtIsoZ cs with
    | some dt => some dt
    | none =>
      match parseFmtSpace cs with
      | some dt => some dt
      | none => parseFmtCompact cs

/-- `S3ToTimescaleDBMigrator.parse_timestamp`. A falsy argument returns
`None`; a truthy string has all `Z` removed and is matched against the
four layouts; a truthy non-string raises `AttributeError` at
`timestamp_str.replace` (only `ValueError` is caught inside the loop, so
the exception escapes). -/
def parse_timestamp (v : JVal) : PyResult (Option DateTime) :=
  if jFalsy v then .ok none
  else
    match v with
    | .str s => .ok (tryFormats (stripZ s.toList))
    | _ => .exn

/-- Python `str.strip()`: drop whitespace from both ends. -/
def pyStrip (cs : List Char) : List Char :=
  ((cs.dropWhile Char.isWhitespace).reverse.dropWhile Char.isWhitespace).reverse

/-- No two consecutive underscores (Python numeric-literal rule). -/
def noDoubleUS : List Char → Bool
  | '_' :: '_' :: _ => false
  | _ :: cs => noDoubleUS cs
  | [] => true

/-- A valid digit group for Python `int()`/`float()` string conversion:
nonempty, begins and ends with a digit, only digits and underscores, and
no two consecutive underscores. -/
def digitsOK (cs : List Char) : Bool :=
  !cs.isEmpty && cs.head?.all Char.isDigit && cs.getLast?.all Char.isDigit
    && cs.all (fun c => c.isDigit || c = '_') && noDoubleUS cs

/-- Value of a digit group, underscores ignored. -/
def digitsToNat (cs : List Char) : Nat :=
  (cs.filter Char.isDigit).foldl (fun a c => a * 10 + digitVal c) 0

/-- Strip one optional leading sign; `true` means negative. -/
def splitSign : List Char → Bool × List Char
  | '-' :: cs => (true, cs)
  | '+' :: cs => (false, cs)
  | cs => (false, cs)

/-- Split at the first character satisfying `p`; the second component is
`none` when no such character occurs. -/
def splitFirst (p : Char → Bool) : List Char → List Char × Option (List Char)
  | [] => ([], none)
  | c :: cs =>
    if p c then ([], some cs)
    else
      let (a, b) := splitFirst p cs
      (c :: a, b)

/-- Python `int(s)` for a string: surrounding whitespace stripped, one
optional sign, then a digit group; anything else raises `ValueError`
(`none`). -/
def pyIntOfString (s : String) : Option Int :=
  let cs := pyStrip s.toList
  let (neg, body) := splitSign cs
  if digitsOK body then
    let v : Int := digitsToNat body
    some (if neg then -v else v)
  else none

/-- Python `float(s)` for a string: optional sign, decimal mantissa with
optional fraction, optional decimal exponent; the value is kept exact as
a rational. Non-finite literals (`inf`, `nan`, ...) are outside the
model — they do not arise from the repository's JSON data. -/
def pyFloatOfString (s : String) : Option Rat :=
  let cs := pyStrip s.toList
  let (neg, body) := splitSign cs
  let (mant, expPart) := splitFirst (fun c => c == 'e' || c == 'E') body
  let (ip, fpOpt) := splitFirst (fun c => c == '.') mant
  let fp := fpOpt.getD []
  let mantOK :=
    match fpOpt with
    | none => digitsOK ip
    | some f => (digitsOK ip || ip.isEmpty) && (digitsOK f || f.isEmpty)
        && !(ip.isEmpty && f.isEmpty)
  let expOK :=
    match expPart with
    | none => true
    | some e => digitsOK (splitSign e).2
  if mantOK && expOK then
    let fdigits := (fp.filter Char.isDigit).length
    let mantNum : Nat := digitsToNat ip * 10 ^ fdigits + digitsToNat fp
    let (epos, eneg) : Nat × Nat :=
      match expPart with
      | none => (0, 0)
      | some e =>
        let (es, ebody) := splitSign e
        if es then (0, digitsToNat ebody) else (digitsToNat ebody, 0)
    let v : Rat := mkRat (mantNum * 10 ^ epos) (10 ^ (fdigits + eneg))
    some (if neg then -v else v)
  else none

/-- Python `int()` truncation of a float toward zero. -/
def ratTrunc (q : Rat) : Int := q.num.tdiv (q.den : Int)

/-- The local `safe_int` helper of `transform_record`:
`int(value) if value is not None else None`, with `ValueError` and
`TypeError` mapped to `None`. -/
def safe_int : JVal → Option Int
  | .null => none
  | .bool b => some (if b then 1 else 0)
  | .int n => some n
  | .float q => some (ratTrunc q)
  | .str s => pyIntOfString s
  | .arr _ => none
  | .obj _ => none

/-- The local `safe_float` helper of `transform_record`:
`float(value) if value is not None else None`, with `ValueError` and
`TypeError` mapped to `None`. -/
def safe_float : JVal → Option Rat
  | .null => none
  | .bool b => some (mkRat (if b then 1 else 0) 1)
  | .int n => some (mkRat n 1)
  | .float q => some q
  | .str s => pyFloatOfString s
  | .arr _ => none
  | .obj _ => none

/-- Python `str` of a float, for values whose denominator divides a
power of ten (every decimal JSON literal): the exact plain-decimal
rendering, which coincides with Python's shortest-roundtrip repr on
such values. Other rationals render as fractions (these never arise
from decoded JSON numbers). -/
def floatRepr (q : Rat) : String :=
  match (List.range 41).find? (fun k => 10 ^ k % q.den == 0) with
  | some 0 => toString q.num ++ ".0"
  | some k =>
    let scaled := q.num.natAbs * (10 ^ k / q.den)
    let s0 := (toString scaled).toList
    let s := List.replicate (k + 1 - s0.length) '0' ++ s0
    let ip := s.take (s.length - k)
    let fpTrim := ((s.drop (s.length - k)).reverse.dropWhile (fun c => c = '0')).reverse
    let fp := if fpTrim.isEmpty then ['0'] else fpTrim
    (if q.num < 0 then "-" else "") ++ String.mk ip ++ "." ++ String.mk fp
  | none => toString q.num ++ " / " ++ toString q.den

/-- A single-quote character, used by Python container `repr`. -/
def sglq : String := String.singleton (Char.ofNat 39)

/-- `repr` of a Python string (quoting modelled without escape rules;
no repository claim depends on container rendering). -/
def quoteStr (s : String) : String := sglq ++ s ++ sglq

mutual

/-- Python `repr` of a decoded JSON value: the element-level rendering
used by `str` on containers. -/
def pyRepr : JVal → String
  | .null => "None"
  | .bool b => if b then "True" else "False"
  | .int n => toString n
  | .float q => floatRepr q
  | .str s => quoteStr s
  | .arr xs => "[" ++ pyReprSeq xs ++ "]"
  | .obj kvs => "\x7b" ++ pyReprKVs kvs ++ "\x7d"

/-- Comma-separated `repr` of list elements. -/
def pyReprSeq : List JVal → String
  | [] => ""
  | [x] => pyRepr x
  | x :: y :: xs => pyRepr x ++ ", " ++ pyReprSeq (y :: xs)

/-- Comma-separated `repr` of dict items. -/
def pyReprKVs : List (String × JVal) → String
  | [] => ""
  | [(k, v)] => quoteStr k ++ ": " ++ pyRepr v
  | (k, v) :: p :: kvs => quoteStr k ++ ": " ++ pyRepr v ++ ", " ++ pyReprKVs (p :: kvs)

end

/-- Python `str` of a decoded JSON value (`str` and `repr` agree except
on strings, which `str` leaves unquoted). -/
def pyStr : JVal → String
  | .str s => s
  | .null => "None"
  | .bool b => if b then "True" else "False"
  | .int n => toString n
  | .float q => floatRepr q
  | .arr xs => pyRepr (.arr xs)
  | .obj kvs => pyRepr (.obj kvs)

/-- A raw snapshot record: a decoded JSON object, keys distinct. -/
abbrev RawRecord := List (String × JVal)

/-- `record.get(k)`: Python `None` when the key is missing. -/
def getJ (r : RawRecord) (k : String) : JVal :=
  match r.find? (fun p => p.1 == k) with
  | some p => p.2
  | none => .null

/-- `str(record.get(k, '')).strip()`. -/
def getStrTrim (r : RawRecord) (k : String) : String :=
  match r.find? (fun p => p.1 == k) with
  | some p => String.mk (pyStrip (pyStr p.2).toList)
  | none => ""

/-- `str(record.get(k, '')).strip() or None`: a trimmed result that is
empty (falsy) becomes `None`. -/
def strField (r : RawRecord) (k : String) : Option String :=
  if (getStrTrim r k).isEmpty then none else some (getStrTrim r k)

/-- The canonical position row, in the column order of the `INSERT`
statement (`receiver_id` is filled by the schema default and carries no
per-record data). -/
structure CanonicalRecord where
  time : DateTime
  icao : String
  flight : Option String
  airline : Option String
  registration : Option String
  aircraft_type : Option String
  latitude : Option Rat
  longitude : Option Rat
  altitude_ft : Option Int
  speed_kt : Option Int
  vertical_rate_ft_min : Option Int
  distance_nm : Option Rat
  heading : Option Rat
  messages : Option Int
  rssi : Option Rat
  age : Option Rat
  data_quality : Option String
  first_seen : DateTime
  last_seen : DateTime
deriving DecidableEq, Repr

/-- `record_time = parse(Position_Time) or parse(Last_Seen) or
datetime.now()`, with Python `or` short-circuiting; an exception
escaping from `parse_timestamp` propagates. -/
def resolveTime (now : DateTime) (r : RawRecord) : PyResult DateTime :=
  match parse_timestamp (getJ r "Position_Time") with
  | .exn => .exn
  | .ok (some dt) => .ok dt
  | .ok none =>
    match parse_timestamp (getJ r "Last_Seen") with
    | .exn => .exn
    | .ok (some dt) => .ok dt
    | .ok none => .ok now

/-- `S3ToTimescaleDBMigrator.transform_record`: builds the insert tuple;
the outer `except Exception` turns any escaping exception into `None`.
Evaluation order follows the source: record time, then `first_seen`,
then `last_seen`, then the (exception-free) field coercions. -/
def transform_record (now : DateTime) (r : RawRecord) : Option CanonicalRecord :=
  match resolveTime now r with
  | .exn => none
  | .ok record_time =>
    match parse_timestamp (getJ r "First_Seen") with
    | .exn => none
    | .ok fs =>
      match parse_timestamp (getJ r "Last_Seen") with
      | .exn => none
      | .ok ls =>
        some {
          time := record_time
          icao := getStrTrim r "ICAO"
          flight := strField r "Ident"
          airline := strField r "Airline"
          registration := strField r "Registration"
          aircraft_type := strField r "Aircraft_Type"
          latitude := safe_float (getJ r "Latitude")
          longitude := safe_float (getJ r "Longitude")
          altitude_ft := safe_int (getJ r "Altitude_ft")
          speed_kt := safe_int (getJ r "Speed_kt")
          vertical_rate_ft_min := safe_int (getJ r "Vertical_Rate_ft_min")
          distance_nm := safe_float (getJ r "Distance_NM")
          heading := safe_float (getJ r "Heading")
          messages := safe_int (getJ r "Messages")
          rssi := safe_float (getJ r "RSSI")
          age := safe_float (getJ r "Age")
          data_quality := strField r "Data_Quality"
          first_seen := fs.getD record_time
          last_seen := ls.getD record_time }

/-- Fuel-indexed worker for `chunkList`; the fuel (instantiated with the
list length, which bounds the number of chunks) only makes the
recursion structural and never runs out. -/
def chunkListF {α : Type} : Nat → Nat → List α → List (List α)
  | _, _, [] => []
  | 0, _, _ :: _ => []
  | fuel + 1, bs, a :: l =>
    if bs = 0 then []
    else (a :: l).take bs :: chunkListF fuel bs ((a :: l).drop bs)

/-- `records[i:i + batch_size]` slicing loop: the list in chunks of
`bs`. A `batch_size` of zero would raise `ValueError` in `range` and is
outside the model (it yields `[]` here). -/
def chunkList (bs : Nat) (l : List α) : List (List α) :=
  chunkListF l.length bs l

/-- The destination table, rows in insertion order. -/
abbrev Store := List CanonicalRecord

/-- The `(icao, time)` key of the `UNIQUE(icao, time)` constraint. -/
def rowKey (c : CanonicalRecord) : String × DateTime := (c.icao, c.time)

/-- Does the store already hold a row with this key? -/
def keyMem (s : Store) (k : String × DateTime) : Bool :=
  s.any (fun c => rowKey c == k)

/-- `INSERT ... ON CONFLICT (icao, time) DO NOTHING` for one row: a
conflicting key leaves the store unchanged (no overwrite), a fresh key
appends the row. -/
def insertRow (s : Store) (c : CanonicalRecord) : Store :=
  if keyMem s (rowKey c) then s else s ++ [c]

/-- One `execute_values` statement over a chunk: rows are processed in
order, each against the store as updated by its predecessors. -/
def insertRows (s : Store) (recs : List CanonicalRecord) : Store :=
  recs.foldl insertRow s

/-- The per-chunk loop of `batch_insert`: chunk `i` either fails
(`fail i`; `conn.rollback()` leaves the store untouched and the counter
unchanged) or commits (`conn.commit()`; counter `+= len(batch)`), and
the loop always proceeds to the next chunk. -/
def runChunks (fail : Nat → Bool) : Nat → Store → List (List CanonicalRecord) → Store × Nat
  | _, s, [] => (s, 0)
  | i, s, ch :: rest =>
    if fail i then runChunks fail (i + 1) s rest
    else
      let (s2, n) := runChunks fail (i + 1) (insertRows s ch) rest
      (s2, ch.length + n)

/-- `S3ToTimescaleDBMigrator.batch_insert`: early-returns `0` on an
empty list, otherwise chunks the records and writes each chunk
atomically; returns the new store (Python mutates `self.conn`) and the
accumulated `total_inserted`. -/
def batch_insert (fail : Nat → Bool) (s : Store) (records : List CanonicalRecord)
    (bs : Nat) : Store × Nat :=
  if records.isEmpty then (s, 0)
  else runChunks fail 0 s (chunkList bs records)

/-- `S3ToTimescaleDBMigrator.load_json_file` (and, identically shaped,
`load_sample_data` of `timescaledb_poc.py`): the body either fails to
read/decode (`.error ()`, caught by the blanket `except`) or decodes to
a JSON value; a dict becomes a one-element list, a list is returned
as-is, any other value yields `[]`. -/
def load_json_file : Except Unit JVal → List JVal
  | .error _ => []
  | .ok (.obj kvs) => [.obj kvs]
  | .ok (.arr xs) => xs
  | .ok _ => []

/-- `transform_record` as invoked by the driver on an arbitrary decoded
element: a non-dict element has no `.get`, so the `AttributeError` is
caught by the outer handler and the element transforms to `None`. -/
def transformElem (now : DateTime) : JVal → Option CanonicalRecord
  | .obj kvs => transform_record now kvs
  | _ => none

/-- The driver's progress counters plus the threaded store. -/
structure MigProgress where
  store : Store
  total_records : Nat
  total_inserted : Nat
deriving DecidableEq, Repr

/-- One iteration of the file loop of `migrate_files`: an empty load
result or an empty transformed list skips the file before either
counter is touched. -/
def migrateStep (now : DateTime) (fail : Nat → Bool) (bs : Nat) (p : MigProgress)
    (file : Except Unit JVal) : MigProgress :=
  if (load_json_file file).isEmpty then p
  else if ((load_json_file file).filterMap (transformElem now)).isEmpty then p
  else
    { store := (batch_insert fail p.store
        ((load_json_file file).filterMap (transformElem now)) bs).1
      total_records := p.total_records + (load_json_file file).length
      total_inserted := p.total_inserted + (batch_insert fail p.store
        ((load_json_file file).filterMap (transformElem now)) bs).2 }

/-- The file loop, threading the failure oracle by file position. -/
def migrateFilesAux (now : DateTime) (fail : Nat → Nat → Bool) (bs : Nat) :
    Nat → MigProgress → List (Except Unit JVal) → MigProgress
  | _, p, [] => p
  | i, p, f :: fs => migrateFilesAux now fail bs (i + 1) (migrateStep now (fail i) bs p f) fs

/-- `S3ToTimescaleDBMigrator.migrate_files` over already-fetched file
bodies: counters start at zero and `max_files` truncates the list. -/
def migrate_files (now : DateTime) (fail : Nat → Nat → Bool)
    (files : List (Except Unit JVal)) (bs : Nat) (maxFiles : Option Nat)
    (s0 : Store) : MigProgress :=
  let files2 :=
    match maxFiles with
    | some m => files.take m
    | none => files
  migrateFilesAux now fail bs 0 ⟨s0, 0, 0⟩ files2

/-- The five aggregates of the validator's completeness query, in
`SELECT` order: `(total, with_lat, with_lon, with_altitude,
with_speed)` — `COUNT(col)` counts non-null values. -/
def completenessQuery (s : Store) : Nat × Nat × Nat × Nat × Nat :=
  (s.length,
   (s.filter (fun c => c.latitude.isSome)).length,
   (s.filter (fun c => c.longitude.isSome)).length,
   (s.filter (fun c => c.altitude_ft.isSome)).length,
   (s.filter (fun c => c.speed_kt.isSome)).length)

/-- The three printed completeness lines of `validate_migration`, each a
`shown / total` pair. -/
structure CompletenessReport where
  coordinates : Nat × Nat
  altitude : Nat × Nat
  speed : Nat × Nat
deriving DecidableEq, Repr

/-- The data-completeness section of
`S3ToTimescaleDBMigrator.validate_migration`: the lines print
`completeness[1]`, `completeness[2]` and `completeness[3]` over
`completeness[0]`, exactly as the source indexes the fetched row. -/
def validate_completeness (s : Store) : CompletenessReport :=
  let c := completenessQuery s
  { coordinates := (c.2.1, c.1)
    altitude := (c.2.2.1, c.1)
    speed := (c.2.2.2.1, c.1) }

/-- The failure oracle of an untroubled run: every chunk commits. -/
def noFail : Nat → Bool := fun _ => false

/-- The first stored row with the given `(icao, time)` key. -/
def findByKey (s : Store) (k : String × DateTime) : Option CanonicalRecord :=
  s.find? (fun c => rowKey c == k)

/-- Number of stored rows with the given key. -/
def countKey (s : Store) (k : String × DateTime) : Nat :=
  (s.filter (fun c => rowKey c == k)).length

/-- The store keys are pairwise distinct. -/
def nodupKeys (s : Store) : Prop := (s.map rowKey).Nodup

/-- Records of the chunks the oracle lets commit, in write order. -/
def committedRecs (fail : Nat → Bool) : Nat → List (List CanonicalRecord) → List CanonicalRecord
  | _, [] => []
  | i, ch :: rest => (if fail i then [] else ch) ++ committedRecs fail (i + 1) rest

/-- The counter contribution of each chunk: its full length when it
commits, zero when it fails. -/
def committedCount (fail : Nat → Bool) : Nat → List (List CanonicalRecord) → Nat
  | _, [] => 0
  | i, ch :: rest => (if fail i then 0 else ch.length) + committedCount fail (i + 1) rest

/-- Values on which `parse_timestamp` cannot raise: anything falsy, and
strings (the `AttributeError` needs a truthy non-string). -/
abbrev tsSafe (v : JVal) : Prop := parse_timestamp v ≠ .exn

/-- Is a decoded value a JSON mapping (Python dict)? -/
def isMapping : JVal → Bool
  | .obj _ => true
  | _ => false

/-- Is a decoded value a JSON sequence (Python list)? -/
def isSeq : JVal → Bool
  | .arr _ => true
  | _ => false

/-- A concrete UTC instant standing in for `datetime.now()` in closed
evaluations. -/
def nowSample : DateTime := ⟨2025, 6, 15, 8, 30, 0, 0⟩

/-- The canonical row of spec scenario 1 (latitude and altitude set,
longitude and speed null), used in closed write-path and validator
evaluations. -/
def sampleRow : CanonicalRecord :=
  { time := ⟨2025, 1, 1, 12, 0, 0, 0⟩
    icao := "ABC123"
    flight := none, airline := none, registration := none, aircraft_type := none
    latitude := some (mkRat 415 10), longitude := none
    altitude_ft := some 350, speed_kt := none, vertical_rate_ft_min := none
    distance_nm := none, heading := none, messages := none, rssi := none, age := none
    data_quality := none
    first_seen := ⟨2025, 1, 1, 12, 0, 0, 0⟩
    last_seen := ⟨2025, 1, 1, 12, 0, 0, 0⟩ }

/-- A raw record whose position time is in the (working) space layout. -/
def scnRaw : RawRecord :=
  [("ICAO", .str "ABC123"), ("Position_Time", .str "2025-01-01 12:00:00")]

/-- The canonical record `scnRaw` transforms to. -/
def scnRow : CanonicalRecord :=
  { time := ⟨2025, 1, 1, 12, 0, 0, 0⟩
    icao := "ABC123"
    flight := none, airline := none, registration := none, aircraft_type := none
    latitude := none, longitude := none
    altitude_ft := none, speed_kt := none, vertical_rate_ft_min := none
    distance_nm := none, heading := none, messages := none, rssi := none, age := none
    data_quality := none
    first_seen := ⟨2025, 1, 1, 12, 0, 0, 0⟩
    last_seen := ⟨2025, 1, 1, 12, 0, 0, 0⟩ }

/-- A 1000-record source body (spec scenario 3). -/
def scnFile : Except Unit JVal := .ok (.arr (List.replicate 1000 (.obj scnRaw)))

/-- Failure oracle of spec scenario 3: in file 0, the second batch's
write raises and is rolled back. -/
def scnFail : Nat → Nat → Bool := fun fi ci => fi == 0 && ci == 1

/-- A raw record with a `null` latitude (and a whitespace ident and an
unparseable speed string), used to witness the coercion policy. -/
def nullishRaw : RawRecord :=
  [("ICAO", .str " AB12 "), ("Latitude", .null), ("Speed_kt", .str "fast"),
   ("Ident", .str "  ")]

/-- The canonical record `nullishRaw` transforms to. -/
def nullishRow : CanonicalRecord :=
  { time := nowSample
    icao := "AB12"
    flight := none, airline := none, registration := none, aircraft_type := none
    latitude := none, longitude := none
    altitude_ft := none, speed_kt := none, vertical_rate_ft_min := none
    distance_nm := none, heading := none, messages := none, rssi := none, age := none
    data_quality := none
    first_seen := nowSample
    last_seen := nowSample }

theorem keyMem_iff {s : Store} {k : String × DateTime} :
    keyMem s k = true ↔ ∃ c ∈ s, rowKey c = k := by
  simp [keyMem, List.any_eq_true]

theorem keyMem_insertRow_self (s : Store) (c : CanonicalRecord) :
    keyMem (insertRow s c) (rowKey c) = true := by
  unfold insertRow
  split
  · assumption
  · simp [keyMem]

theorem keyMem_insertRow_mono {s : Store} {k : String × DateTime} (c : CanonicalRecord)
    (h : keyMem s k = true) : keyMem (insertRow s c) k = true := by
  unfold insertRow
  split
  · exact h
  · rcases keyMem_iff.mp h with ⟨c2, hc2, hk⟩
    exact keyMem_iff.mpr ⟨c2, List.mem_append_left _ hc2, hk⟩

theorem keyMem_insertRows_mono {s : Store} {k : String × DateTime}
    (recs : List CanonicalRecord) (h : keyMem s k = true) :
    keyMem (insertRows s recs) k = true := by
  induction recs generalizing s with
  | nil => exact h
  | cons r rest ih => exact ih (keyMem_insertRow_mono r h)

theorem keyMem_insertRows_self (s : Store) (recs : List CanonicalRecord) :
    ∀ r ∈ recs, keyMem (insertRows s recs) (rowKey r) = true := by
  induction recs generalizing s with
  | nil => intro r hr; cases hr
  | cons a rest ih =>
    intro r hr
    rcases List.mem_cons.mp hr with rfl | hr2
    · exact keyMem_insertRows_mono rest (keyMem_insertRow_self s r)
    · exact ih (insertRow s a) r hr2

theorem insertRow_of_keyMem {s : Store} {c : CanonicalRecord}
    (h : keyMem s (rowKey c) = true) : insertRow s c = s := by
  simp [insertRow, h]

theorem insertRows_of_all_keyMem {s : Store} {recs : List CanonicalRecord}
    (h : ∀ r ∈ recs, keyMem s (rowKey r) = true) : insertRows s recs = s := by
  induction recs with
  | nil => rfl
  | cons a rest ih =>
    have ha := insertRow_of_keyMem (h a (List.mem_cons_self a rest))
    show insertRows (insertRow s a) rest = s
    rw [ha]
    exact ih (fun r hr => h r (List.mem_cons_of_mem a hr))

theorem insertRows_idem (s : Store) (recs : List CanonicalRecord) :
    insertRows (insertRows s recs) recs = insertRows s recs :=
  insertRows_of_all_keyMem (keyMem_insertRows_self s recs)

theorem findByKey_isSome_of_keyMem {s : Store} {k : String × DateTime}
    (h : keyMem s k = true) : (findByKey s k).isSome := by
  rcases keyMem_iff.mp h with ⟨c, hc, hk⟩
  exact List.find?_isSome.mpr ⟨c, hc, by simp [hk]⟩

theorem findByKey_insertRow {s : Store} {k : String × DateTime} (c : CanonicalRecord)
    (h : keyMem s k = true) : findByKey (insertRow s c) k = findByKey s k := by
  unfold insertRow
  split
  · rfl
  · show findByKey (s ++ [c]) k = findByKey s k
    unfold findByKey
    rw [List.find?_append]
    rcases Option.isSome_iff_exists.mp (findByKey_isSome_of_keyMem h) with ⟨c2, hc2⟩
    simp [findByKey] at hc2
    simp [hc2]

theorem findByKey_insertRows {s : Store} {k : String × DateTime}
    (recs : List CanonicalRecord) (h : keyMem s k = true) :
    findByKey (insertRows s recs) k = findByKey s k := by
  induction recs generalizing s with
  | nil => rfl
  | cons a rest ih =>
    show findByKey (insertRows (insertRow s a) rest) k = findByKey s k
    rw [ih (keyMem_insertRow_mono a h), findByKey_insertRow a h]

theorem nodupKeys_insertRow {s : Store} (c : CanonicalRecord) (h : nodupKeys s) :
    nodupKeys (insertRow s c) := by
  unfold insertRow
  split
  · exact h
  · next hmem =>
    unfold nodupKeys
    rw [List.map_append, List.nodup_append]
    refine ⟨h, List.nodup_singleton _, ?_⟩
    intro k hk hk2
    simp only [List.map_cons, List.map_nil, List.mem_singleton] at hk2
    rcases List.mem_map.mp hk with ⟨c2, hc2, hkc2⟩
    exact absurd (keyMem_iff.mpr ⟨c2, hc2, by rw [hkc2, hk2]⟩) (by simp_all)

theorem nodupKeys_insertRows {s : Store} (recs : List CanonicalRecord) (h : nodupKeys s) :
    nodupKeys (insertRows s recs) := by
  induction recs generalizing s with
  | nil => exact h
  | cons a rest ih => exact ih (nodupKeys_insertRow a h)

theorem mem_insertRow {s : Store} {c : CanonicalRecord} (c2 : CanonicalRecord)
    (h : c ∈ s) : c ∈ insertRow s c2 := by
  unfold insertRow
  split
  · exact h
  · exact List.mem_append_left _ h

theorem mem_insertRows {s : Store} {c : CanonicalRecord} (recs : List CanonicalRecord)
    (h : c ∈ s) : c ∈ insertRows s recs := by
  induction recs generalizing s with
  | nil => exact h
  | cons a rest ih => exact ih (mem_insertRow a h)

theorem insertRows_append (s : Store) (a b : List CanonicalRecord) :
    insertRows s (a ++ b) = insertRows (insertRows s a) b :=
  List.foldl_append insertRow s a b

theorem runChunks_eq (fail : Nat → Bool) (i : Nat) (s : Store)
    (chunks : List (List CanonicalRecord)) :
    runChunks fail i s chunks
      = (insertRows s (committedRecs fail i chunks), committedCount fail i chunks) := by
  induction chunks generalizing i s with
  | nil => rfl
  | cons ch rest ih =>
    show runChunks fail i s (ch :: rest) = _
    unfold runChunks committedRecs committedCount
    by_cases hf : fail i
    · simp [hf, ih]
    · simp [hf, ih, insertRows_append]

theorem chunkListF_flatten {α : Type} {bs : Nat} (hbs : bs ≠ 0) :
    ∀ (fuel : Nat) (l : List α), l.length ≤ fuel → (chunkListF fuel bs l).flatten = l := by
  intro fuel
  induction fuel with
  | zero =>
    intro l hl
    have : l = [] := List.length_eq_zero.mp (Nat.le_zero.mp hl)
    subst this
    rfl
  | succ fuel ih =>
    intro l hl
    cases l with
    | nil => rfl
    | cons a l2 =>
      show (if bs = 0 then [] else _).flatten = _
      rw [if_neg hbs, List.flatten_cons]
      have hlen : ((a :: l2).drop bs).length ≤ fuel := by
        simp only [List.length_drop, List.length_cons]
        simp only [List.length_cons] at hl
        omega
      rw [ih ((a :: l2).drop bs) hlen]
      exact List.take_append_drop bs (a :: l2)

theorem chunkList_flatten {α : Type} (bs : Nat) (hbs : bs ≠ 0) (l : List α) :
    (chunkList bs l).flatten = l :=
  chunkListF_flatten hbs l.length l (Nat.le_refl _)

theorem batch_insert_eq (fail : Nat → Bool) (s : Store) (records : List CanonicalRecord)
    (bs : Nat) :
    batch_insert fail s records bs
      = (insertRows s (committedRecs fail 0 (chunkList bs records)),
         committedCount fail 0 (chunkList bs records)) := by
  unfold batch_insert
  split
  · next h =>
    have : records = [] := by simpa [List.isEmpty_iff] using h
    subst this
    simp [chunkList, chunkListF, committedRecs, committedCount, insertRows]
  · exact runChunks_eq fail 0 s (chunkList bs records)

theorem committedRecs_noFail (i : Nat) (chunks : List (List CanonicalRecord)) :
    committedRecs noFail i chunks = chunks.flatten := by
  induction chunks generalizing i with
  | nil => rfl
  | cons ch rest ih => simp [committedRecs, noFail, ih, List.flatten_cons]

theorem committedCount_noFail (i : Nat) (chunks : List (List CanonicalRecord)) :
    committedCount noFail i chunks = (chunks.map List.length).sum := by
  induction chunks generalizing i with
  | nil => rfl
  | cons ch rest ih => simp [committedCount, noFail, ih]

theorem batch_insert_noFail (s : Store) (records : List CanonicalRecord) {bs : Nat}
    (hbs : bs ≠ 0) :
    batch_insert noFail s records bs = (insertRows s records, records.length) := by
  rw [batch_insert_eq, committedRecs_noFail, committedCount_noFail,
    chunkList_flatten bs hbs records]
  rw [← List.length_flatten, chunkList_flatten bs hbs records]

theorem mem_committedRecs {fail : Nat → Bool} {i : Nat}
    {chunks : List (List CanonicalRecord)} {r : CanonicalRecord}
    (h : r ∈ committedRecs fail i chunks) : r ∈ chunks.flatten := by
  induction chunks generalizing i with
  | nil => cases h
  | cons ch rest ih =>
    rw [List.flatten_cons]
    rcases List.mem_append.mp h with h2 | h2
    · refine List.mem_append_left _ ?_
      by_cases hf : fail i
      · simp [hf] at h2
      · simpa [hf] using h2
    · exact List.mem_append_right _ (ih h2)

theorem chunkList_zero {α : Type} (l : List α) : chunkList 0 l = [] := by
  cases l <;> simp [chunkList, chunkListF]

theorem mem_chunkList_flatten {α : Type} {bs : Nat} {l : List α} {r : α}
    (h : r ∈ (chunkList bs l).flatten) : r ∈ l := by
  by_cases hbs : bs = 0
  · subst hbs
    rw [chunkList_zero] at h
    cases h
  · rw [chunkList_flatten bs hbs l] at h
    exact h

theorem batch_insert_no_new (fail : Nat → Bool) {s : Store} {records : List CanonicalRecord}
    (bs : Nat) (h : ∀ r ∈ records, keyMem s (rowKey r) = true) :
    (batch_insert fail s records bs).1 = s := by
  rw [batch_insert_eq]
  exact insertRows_of_all_keyMem
    (fun r hr => h r (mem_chunkList_flatten (mem_committedRecs hr)))

theorem tsSafe_str (s : String) : tsSafe (.str s) := by
  unfold tsSafe parse_timestamp
  split <;> simp

theorem tsSafe_null : tsSafe .null := by
  unfold tsSafe parse_timestamp
  simp [jFalsy]

/-- Every field of a successfully transformed record is exactly the
source expression of the corresponding tuple slot. -/
theorem transform_fields {now : DateTime} {r : RawRecord} {c : CanonicalRecord}
    (h : transform_record now r = some c) :
    c.icao = getStrTrim r "ICAO"
    ∧ c.flight = strField r "Ident"
    ∧ c.airline = strField r "Airline"
    ∧ c.registration = strField r "Registration"
    ∧ c.aircraft_type = strField r "Aircraft_Type"
    ∧ c.latitude = safe_float (getJ r "Latitude")
    ∧ c.longitude = safe_float (getJ r "Longitude")
    ∧ c.altitude_ft = safe_int (getJ r "Altitude_ft")
    ∧ c.speed_kt = safe_int (getJ r "Speed_kt")
    ∧ c.vertical_rate_ft_min = safe_int (getJ r "Vertical_Rate_ft_min")
    ∧ c.distance_nm = safe_float (getJ r "Distance_NM")
    ∧ c.heading = safe_float (getJ r "Heading")
    ∧ c.messages = safe_int (getJ r "Messages")
    ∧ c.rssi = safe_float (getJ r "RSSI")
    ∧ c.age = safe_float (getJ r "Age")
    ∧ c.data_quality = strField r "Data_Quality" := by
  unfold transform_record at h
  split at h
  · exact Option.noConfusion h
  · split at h
    · exact Option.noConfusion h
    · split at h
      · exact Option.noConfusion h
      · obtain rfl := Option.some.inj h
        exact ⟨rfl, rfl, rfl, rfl, rfl, rfl, rfl, rfl, rfl, rfl, rfl, rfl, rfl, rfl, rfl, rfl⟩

theorem getStrTrim_absent {r : RawRecord} {k : String}
    (h : r.find? (fun p => p.1 == k) = none) : getStrTrim r k = "" := by
  unfold getStrTrim
  rw [h]

theorem getStrTrim_eq {r : RawRecord} {k : String} {s : String}
    (h : getJ r k = .str s) : getStrTrim r k = String.mk (pyStrip s.toList) := by
  unfold getJ at h
  unfold getStrTrim
  split at h
  · rw [h]; rfl
  · exact absurd h (by simp)

theorem strField_absent {r : RawRecord} {k : String}
    (h : r.find? (fun p => p.1 == k) = none) : strField r k = none := by
  unfold strField
  rw [getStrTrim_absent h]
  rfl

theorem strField_trimEmpty {r : RawRecord} {k : String} {s : String}
    (h : getJ r k = .str s) (ht : pyStrip s.toList = []) : strField r k = none := by
  unfold strField
  rw [getStrTrim_eq h, ht]
  rfl

theorem strField_ne_empty (r : RawRecord) (k : String) : strField r k ≠ some "" := by
  unfold strField
  split
  · exact fun h => Option.noConfusion h
  · next he =>
    intro h
    rw [Option.some.inj h] at he
    exact he rfl

theorem mem_insertRows_src {s : Store} {recs : List CanonicalRecord} {c : CanonicalRecord}
    (h : c ∈ insertRows s recs) : c ∈ s ∨ c ∈ recs := by
  induction recs generalizing s with
  | nil => exact Or.inl h
  | cons a rest ih =>
    rcases ih h with h2 | h2
    · unfold insertRow at h2
      split at h2
      · exact Or.inl h2
      · rcases List.mem_append.mp h2 with h3 | h3
        · exact Or.inl h3
        · exact Or.inr (List.mem_cons.mpr (Or.inl (List.mem_singleton.mp h3)))
    · exact Or.inr (List.mem_cons_of_mem a h2)

theorem migrateFilesAux_append (now : DateTime) (fail : Nat → Nat → Bool) (bs : Nat)
    (files : List (Except Unit JVal)) (f1 : Except Unit JVal) :
    ∀ (i : Nat) (p : MigProgress),
      migrateFilesAux now fail bs i p (files ++ [f1])
        = migrateStep now (fail (i + files.length)) bs
            (migrateFilesAux now fail bs i p files) f1 := by
  induction files with
  | nil => intro i p; simp [migrateFilesAux]
  | cons f fs ih =>
    intro i p
    show migrateFilesAux now fail bs (i + 1) _ (fs ++ [f1]) = _
    rw [ih]
    show migrateStep now (fail (i + 1 + fs.length)) bs _ f1 = _
    have : i + 1 + fs.length = i + (fs.length + 1) := by omega
    rw [this]
    rfl

theorem filterMap_replicate_some {α β : Type} (f : α → Option β) (a : α) (b : β)
    (h : f a = some b) : ∀ n, (List.replicate n a).filterMap f = List.replicate n b := by
  intro n
  induction n with
  | zero => rfl
  | succ n ih => simp [List.replicate_succ, List.filterMap_cons, h, ih]

theorem chunkListF_fuel_irrel {α : Type} (bs : Nat) :
    ∀ (f1 f2 : Nat) (l : List α), l.length ≤ f1 → l.length ≤ f2 →
      chunkListF f1 bs l = chunkListF f2 bs l := by
  intro f1
  induction f1 with
  | zero =>
    intro f2 l h1 h2
    have : l = [] := List.length_eq_zero.mp (Nat.le_zero.mp h1)
    subst this
    cases f2 <;> rfl
  | succ f1 ih =>
    intro f2 l h1 h2
    cases l with
    | nil => cases f2 <;> rfl
    | cons a t =>
      cases f2 with
      | zero => simp at h2
      | succ f2 =>
        show (if bs = 0 then [] else _) = (if bs = 0 then [] else _)
        by_cases hbs : bs = 0
        · rw [if_pos hbs, if_pos hbs]
        · rw [if_neg hbs, if_neg hbs]
          have hd : ((a :: t).drop bs).length ≤ f1 := by
            simp only [List.length_drop, List.length_cons]
            simp only [List.length_cons] at h1
            omega
          have hd2 : ((a :: t).drop bs).length ≤ f2 := by
            simp only [List.length_drop, List.length_cons]
            simp only [List.length_cons] at h2
            omega
          rw [ih f2 ((a :: t).drop bs) hd hd2]

theorem chunkList_append_exact {α : Type} (bs : Nat) (hbs : bs ≠ 0)
    (l1 l2 : List α) (h : l1.length = bs) :
    chunkList bs (l1 ++ l2) = l1 :: chunkList bs l2 := by
  cases l1 with
  | nil => exact absurd h.symm hbs
  | cons a t =>
    unfold chunkList
    have hlen : ((a :: t) ++ l2).length = (t.length + l2.length) + 1 := by
      simp [Nat.add_comm, Nat.add_assoc, Nat.add_left_comm]
    rw [hlen]
    show (if bs = 0 then [] else _) = _
    rw [if_neg hbs]
    show List.take bs ((a :: t) ++ l2)
        :: chunkListF (t.length + l2.length) bs (List.drop bs ((a :: t) ++ l2))
      = (a :: t) :: chunkListF l2.length bs l2
    rw [List.take_left' h, List.drop_left' h]
    rw [chunkListF_fuel_irrel bs (t.length + l2.length) l2.length l2 (by omega) (by omega)]

/-- **C1** (code bug). The spec says every string in one of the four
supported layouts parses to its literal wall-clock value, trailing-`Z`
insensitive. In the code, `parse_timestamp` removes every `Z` from the
input and then matches patterns that still demand a literal trailing
`Z`, so the two ISO-`T` layouts can never match: `2025-01-01T12:00:00Z`
(and its fractional-seconds variant, and the same string without `Z`)
parses to `None`, while the space and compact layouts do return the
written wall-clock value. -/
theorem parse_timestamp_iso_layouts_unmatchable :
    parse_timestamp (.str "2025-01-01T12:00:00Z") = .ok none
    ∧ parse_timestamp (.str "2025-01-01T12:00:00.000000Z") = .ok none
    ∧ parse_timestamp (.str "2025-01-01T12:00:00") = .ok none
    ∧ parse_timestamp (.str "2025-01-01 12:00:00") = .ok (some ⟨2025, 1, 1, 12, 0, 0, 0⟩)
    ∧ parse_timestamp (.str "20250101_120000") = .ok (some ⟨2025, 1, 1, 12, 0, 0, 0⟩) :=
  ⟨rfl, rfl, rfl, rfl, rfl⟩

/-- **C2** (counterexample). A raw record whose position-time field
holds a truthy non-string — the JSON number `5` — is transformed to
`None` and dropped: `timestamp_str.replace` raises `AttributeError`,
which the format loop does not catch, and the outer handler returns
`None`. This refutes "transform ... returns a canonical record (not
None) ... so no input record is ever dropped" for records with fields
of any type. -/
theorem transform_drops_nonstring_time :
    transform_record nowSample [("Position_Time", .int 5)] = none := by decide

/-- **C2** (amended). `transform` never raises, and whenever the
position-time, last-seen and first-seen values are each absent, falsy
or a string — true of every well-formed snapshot record — it returns a
canonical record (never `None`); when position time and last seen are
absent or unparseable the record's time is the current wall-clock
instant. Only a truthy non-string timestamp value makes the record
drop. -/
theorem transform_record_build {now : DateTime} {r : RawRecord} {dt : DateTime}
    {fs ls : Option DateTime} (hrt : resolveTime now r = .ok dt)
    (hfs : parse_timestamp (getJ r "First_Seen") = .ok fs)
    (hls : parse_timestamp (getJ r "Last_Seen") = .ok ls) :
    transform_record now r = some {
      time := dt
      icao := getStrTrim r "ICAO"
      flight := strField r "Ident"
      airline := strField r "Airline"
      registration := strField r "Registration"
      aircraft_type := strField r "Aircraft_Type"
      latitude := safe_float (getJ r "Latitude")
      longitude := safe_float (getJ r "Longitude")
      altitude_ft := safe_int (getJ r "Altitude_ft")
      speed_kt := safe_int (getJ r "Speed_kt")
      vertical_rate_ft_min := safe_int (getJ r "Vertical_Rate_ft_min")
      distance_nm := safe_float (getJ r "Distance_NM")
      heading := safe_float (getJ r "Heading")
      messages := safe_int (getJ r "Messages")
      rssi := safe_float (getJ r "RSSI")
      age := safe_float (getJ r "Age")
      data_quality := strField r "Data_Quality"
      first_seen := fs.getD dt
      last_seen := ls.getD dt } := by
  unfold transform_record
  rw [hrt, hfs, hls]

theorem transform_total_on_safe_times (now : DateTime) (r : RawRecord)
    (h1 : tsSafe (getJ r "Position_Time")) (h2 : tsSafe (getJ r "Last_Seen"))
    (h3 : tsSafe (getJ r "First_Seen")) :
    ∃ c, transform_record now r = some c
      ∧ (parse_timestamp (getJ r "Position_Time") = .ok none →
          parse_timestamp (getJ r "Last_Seen") = .ok none → c.time = now) := by
  cases hpt : parse_timestamp (getJ r "Position_Time") with
  | exn => exact absurd hpt h1
  | ok pt =>
    cases hls : parse_timestamp (getJ r "Last_Seen") with
    | exn => exact absurd hls h2
    | ok ls =>
      cases hfs : parse_timestamp (getJ r "First_Seen") with
      | exn => exact absurd hfs h3
      | ok fs =>
        cases pt with
        | some dt =>
          have hrt : resolveTime now r = .ok dt := by unfold resolveTime; rw [hpt]
          refine ⟨_, transform_record_build hrt hfs hls, ?_⟩
          intro hp _
          exact absurd (PyResult.ok.inj hp) (by simp)
        | none =>
          cases ls with
          | some dt =>
            have hrt : resolveTime now r = .ok dt := by
              unfold resolveTime; rw [hpt, hls]
            refine ⟨_, transform_record_build hrt hfs hls, ?_⟩
            intro _ hl
            exact absurd (PyResult.ok.inj hl) (by simp)
          | none =>
            have hrt : resolveTime now r = .ok now := by
              unfold resolveTime; rw [hpt, hls]
            exact ⟨_, transform_record_build hrt hfs hls, fun _ _ => rfl⟩

/-- Witness for **C2** (amended): a record whose position time is an
unparseable string still transforms, and its time is the wall clock. -/
theorem transform_total_on_safe_times_witness :
    ∃ c, transform_record nowSample [("ICAO", .str "A1"), ("Position_Time", .str "soon")]
          = some c
      ∧ (parse_timestamp (getJ [("ICAO", .str "A1"), ("Position_Time", .str "soon")]
            "Position_Time") = .ok none →
          parse_timestamp (getJ [("ICAO", .str "A1"), ("Position_Time", .str "soon")]
            "Last_Seen") = .ok none → c.time = nowSample) :=
  transform_total_on_safe_times nowSample _ (by decide) (by decide) (by decide)

/-- **C3** (counterexample). Writing the same one-record batch twice:
the second call persists nothing (the store is unchanged) yet returns
1, the size of the submitted batch — the claim that the returned count
equals the rows newly persisted, and is zero on a repeat, fails. -/
theorem batch_insert_recounts_duplicates :
    (batch_insert noFail ((batch_insert noFail [] [sampleRow] 1000).1) [sampleRow] 1000).2 = 1
    ∧ (batch_insert noFail ((batch_insert noFail [] [sampleRow] 1000).1) [sampleRow] 1000).1
        = (batch_insert noFail [] [sampleRow] 1000).1 := by decide

/-- **C3** (amended). `batch_insert` returns the number of records in
batches whose write committed — records whose key already exists
included — not the number of rows newly persisted: a failure-free call
always returns the submitted length, and re-submitting the same records
returns the full length again while the store gains no row. -/
theorem batch_insert_returns_submitted_count (s : Store) (recs : List CanonicalRecord)
    (bs : Nat) (hbs : bs ≠ 0) :
    (batch_insert noFail s recs bs).2 = recs.length
    ∧ (batch_insert noFail s recs bs).1 = insertRows s recs
    ∧ (batch_insert noFail (insertRows s recs) recs bs).2 = recs.length
    ∧ (batch_insert noFail (insertRows s recs) recs bs).1 = insertRows s recs := by
  have e1 := batch_insert_noFail s recs hbs
  have e2 := batch_insert_noFail (insertRows s recs) recs hbs
  exact ⟨by rw [e1], by rw [e1], by rw [e2], by rw [e2]; exact insertRows_idem s recs⟩

/-- Witness for **C3** (amended) at a concrete store and batch. -/
theorem batch_insert_returns_submitted_count_witness :
    (batch_insert noFail [] [sampleRow] 2).2 = 1 :=
  (batch_insert_returns_submitted_count [] [sampleRow] 2 (by decide)).1

/-- **C6** (code bug). Over a store holding only the scenario-1 row
(latitude 41.5, altitude 350, longitude and speed null) the query
counts the four fields correctly — `with_speed = 0`, `with_altitude =
1` — but the printed report indexes the result tuple off by one: the
"speed" line shows the altitude count `1/1` (the claim requires `0/1`)
and the "altitude" line shows the longitude count `0/1`. -/
theorem validator_completeness_mislabelled :
    (validate_completeness [sampleRow]).speed = (1, 1)
    ∧ (completenessQuery [sampleRow]).2.2.2.2 = 0
    ∧ (validate_completeness [sampleRow]).altitude = (0, 1)
    ∧ (completenessQuery [sampleRow]).2.2.2.1 = 1
    ∧ (validate_completeness [sampleRow]).coordinates = (1, 1) := by decide

/-- **C7** (counterexample). A body decoding to a sequence of
non-mappings — `[1, 2]` — is returned as-is (two elements, none of them
a mapping), not as the empty sequence the claim requires for "any other
decoded shape". -/
theorem load_json_returns_nonmapping_sequence :
    load_json_file (.ok (.arr [.int 1, .int 2])) = [.int 1, .int 2]
    ∧ (load_json_file (.ok (.arr [.int 1, .int 2]))).length = 2
    ∧ (load_json_file (.ok (.arr [.int 1, .int 2]))).all isMapping = false :=
  ⟨rfl, rfl, rfl⟩

/-- **C7** (amended). The loader returns a one-element sequence for a
single mapping, any decoded sequence as-is (whether or not its elements
are mappings), and the empty sequence for every non-mapping,
non-sequence value and for every read/decode failure; it never raises. -/
theorem load_json_shapes :
    (∀ kvs, load_json_file (.ok (.obj kvs)) = [.obj kvs])
    ∧ (∀ xs, load_json_file (.ok (.arr xs)) = xs)
    ∧ (∀ v, isMapping v = false → isSeq v = false → load_json_file (.ok v) = [])
    ∧ load_json_file (.error ()) = [] := by
  refine ⟨fun kvs => rfl, fun xs => rfl, ?_, rfl⟩
  intro v h1 h2
  cases v <;> simp_all [isMapping, isSeq, load_json_file]

/-- Witness for **C7** (amended): a bare number loads as no records. -/
theorem load_json_shapes_witness : load_json_file (.ok (.int 7)) = [] :=
  load_json_shapes.2.2.1 (.int 7) rfl rfl

/-- **C10**. `safe_int` on a fractional JSON number truncates toward
zero (`41.9 ↦ 41`, `-41.9 ↦ -41`); the same numeral as a string fails
`int()` and becomes `None`, while an integral string converts. The
rational `mkRat 419 10` is exactly the literal `41.9`. -/
theorem safe_int_truncates_floats :
    safe_int (.float (mkRat 419 10)) = some 41
    ∧ safe_int (.str "41.9") = none
    ∧ safe_int (.float (mkRat (-419) 10)) = some (-41)
    ∧ safe_int (.str "41") = some 41
    ∧ (∀ q : Rat, safe_int (.float q) = some (ratTrunc q))
    ∧ (41.9 : Rat) = mkRat 419 10 := by
  refine ⟨by decide, by decide, by decide, by decide, fun q => rfl, ?_⟩
  norm_num [Rat.mkRat_eq_div]

/-- **C4**. The store is write-once per `(icao, time)` key: batched
writes preserve key-uniqueness; a write whose key is already stored
never changes the stored row; a batch holding two records with the same
key stores exactly one row for that key; and re-running the very same
migration (under any failure pattern the second time) leaves the stored
row set exactly as after the first run. -/
theorem store_write_once_per_key (f f2 : Nat → Bool) (s : Store)
    (recs : List CanonicalRecord) (bs : Nat) (hbs : bs ≠ 0) (hs : nodupKeys s) :
    nodupKeys (batch_insert f s recs bs).1
    ∧ (∀ k, keyMem s k = true →
        findByKey (batch_insert f s recs bs).1 k = findByKey s k)
    ∧ (∀ r1 r2 : CanonicalRecord, rowKey r1 = rowKey r2 →
        countKey (batch_insert noFail [] [r1, r2] bs).1 (rowKey r1) = 1)
    ∧ (batch_insert f2 (batch_insert noFail s recs bs).1 recs bs).1
        = (batch_insert noFail s recs bs).1 := by
  refine ⟨?_, ?_, ?_, ?_⟩
  · rw [congrArg Prod.fst (batch_insert_eq f s recs bs)]
    exact nodupKeys_insertRows _ hs
  · intro k hk
    rw [congrArg Prod.fst (batch_insert_eq f s recs bs)]
    exact findByKey_insertRows _ hk
  · intro r1 r2 hk
    rw [congrArg Prod.fst (batch_insert_noFail [] [r1, r2] hbs)]
    show countKey (insertRow (insertRow [] r1) r2) (rowKey r1) = 1
    rw [show insertRow ([] : Store) r1 = [r1] from rfl]
    rw [insertRow_of_keyMem (show keyMem [r1] (rowKey r2) = true by
      simp [keyMem, ← hk])]
    simp [countKey]
  · rw [congrArg Prod.fst (batch_insert_noFail s recs hbs)]
    exact batch_insert_no_new f2 bs (keyMem_insertRows_self s recs)

/-- Witness for **C4**: a batch holding the same row twice stores it
once. -/
theorem store_write_once_per_key_witness :
    countKey (batch_insert noFail [] [sampleRow, sampleRow] 1000).1 (rowKey sampleRow) = 1 :=
  (store_write_once_per_key noFail noFail [] [] 1000 (by decide)
    (by simp [nodupKeys])).2.2.1 sampleRow sampleRow rfl

/-- **C5**. Batch writes are atomic and failures are isolated: the
final store equals the pure insertion of exactly the committed chunks'
records (a failed chunk is rolled back whole and leaves no trace), the
returned count adds each committed chunk's length and zero for each
failed chunk, every previously stored row survives, and every stored
row descends from the prior store or a committed chunk — rows of
batches before and after a failed one are therefore all committed. -/
theorem batch_failure_isolation (f : Nat → Bool) (s : Store)
    (records : List CanonicalRecord) (bs : Nat) :
    (batch_insert f s records bs).1
        = insertRows s (committedRecs f 0 (chunkList bs records))
    ∧ (batch_insert f s records bs).2 = committedCount f 0 (chunkList bs records)
    ∧ (∀ c, c ∈ s → c ∈ (batch_insert f s records bs).1)
    ∧ (∀ c, c ∈ (batch_insert f s records bs).1 →
        c ∈ s ∨ c ∈ committedRecs f 0 (chunkList bs records)) := by
  have he := batch_insert_eq f s records bs
  refine ⟨congrArg Prod.fst he, congrArg Prod.snd he, ?_, ?_⟩
  · intro c hc
    rw [congrArg Prod.fst he]
    exact mem_insertRows _ hc
  · intro c hc
    rw [congrArg Prod.fst he] at hc
    exact mem_insertRows_src hc

/-- Witness for **C5**: with the only chunk failing, a previously
stored row is still present afterwards. -/
theorem batch_failure_isolation_witness :
    sampleRow ∈ (batch_insert (fun _ => true) [sampleRow] [scnRow] 1).1 :=
  (batch_failure_isolation (fun _ => true) [sampleRow] [scnRow] 1).2.2.1 sampleRow
    (by simp)

/-- **C8**. Null/failed coercions never default: every numeric field
whose source value is JSON `null` or a string rejected by its `int()` /
`float()` conversion comes out `null` (never `0`); every string field
other than `icao` that is absent, or whose string value trims to empty,
comes out `null` and is never the empty string; `icao` is kept as the
trimmed source text (possibly empty); and no coercion failure aborts
the record (the transform succeeded and produced `c`). -/
theorem transform_null_coercion_policy (now : DateTime) (r : RawRecord)
    (c : CanonicalRecord) (h : transform_record now r = some c) :
    ((getJ r "Latitude" = .null → c.latitude = none)
      ∧ ∀ s, getJ r "Latitude" = .str s → pyFloatOfString s = none → c.latitude = none)
    ∧ ((getJ r "Longitude" = .null → c.longitude = none)
      ∧ ∀ s, getJ r "Longitude" = .str s → pyFloatOfString s = none → c.longitude = none)
    ∧ ((getJ r "Distance_NM" = .null → c.distance_nm = none)
      ∧ ∀ s, getJ r "Distance_NM" = .str s → pyFloatOfString s = none → c.distance_nm = none)
    ∧ ((getJ r "Heading" = .null → c.heading = none)
      ∧ ∀ s, getJ r "Heading" = .str s → pyFloatOfString s = none → c.heading = none)
    ∧ ((getJ r "RSSI" = .null → c.rssi = none)
      ∧ ∀ s, getJ r "RSSI" = .str s → pyFloatOfString s = none → c.rssi = none)
    ∧ ((getJ r "Age" = .null → c.age = none)
      ∧ ∀ s, getJ r "Age" = .str s → pyFloatOfString s = none → c.age = none)
    ∧ ((getJ r "Altitude_ft" = .null → c.altitude_ft = none)
      ∧ ∀ s, getJ r "Altitude_ft" = .str s → pyIntOfString s = none → c.altitude_ft = none)
    ∧ ((getJ r "Speed_kt" = .null → c.speed_kt = none)
      ∧ ∀ s, getJ r "Speed_kt" = .str s → pyIntOfString s = none → c.speed_kt = none)
    ∧ ((getJ r "Vertical_Rate_ft_min" = .null → c.vertical_rate_ft_min = none)
      ∧ ∀ s, getJ r "Vertical_Rate_ft_min" = .str s → pyIntOfString s = none →
          c.vertical_rate_ft_min = none)
    ∧ ((getJ r "Messages" = .null → c.messages = none)
      ∧ ∀ s, getJ r "Messages" = .str s → pyIntOfString s = none → c.messages = none)
    ∧ ((r.find? (fun p => p.1 == "Ident") = none → c.flight = none)
      ∧ (∀ s, getJ r "Ident" = .str s → pyStrip s.toList = [] → c.flight = none)
      ∧ c.flight ≠ some "")
    ∧ ((r.find? (fun p => p.1 == "Airline") = none → c.airline = none)
      ∧ (∀ s, getJ r "Airline" = .str s → pyStrip s.toList = [] → c.airline = none)
      ∧ c.airline ≠ some "")
    ∧ ((r.find? (fun p => p.1 == "Registration") = none → c.registration = none)
      ∧ (∀ s, getJ r "Registration" = .str s → pyStrip s.toList = [] → c.registration = none)
      ∧ c.registration ≠ some "")
    ∧ ((r.find? (fun p => p.1 == "Aircraft_Type") = none → c.aircraft_type = none)
      ∧ (∀ s, getJ r "Aircraft_Type" = .str s → pyStrip s.toList = [] → c.aircraft_type = none)
      ∧ c.aircraft_type ≠ some "")
    ∧ ((r.find? (fun p => p.1 == "Data_Quality") = none → c.data_quality = none)
      ∧ (∀ s, getJ r "Data_Quality" = .str s → pyStrip s.toList = [] → c.data_quality = none)
      ∧ c.data_quality ≠ some "")
    ∧ c.icao = getStrTrim r "ICAO" := by
  obtain ⟨hicao, hfl, hair, hreg, htyp, hlat, hlon, halt, hspd, hvr, hdnm,
    hhd, hmsg, hrssi, hage, hdq⟩ := transform_fields h
  exact ⟨
    ⟨fun hn => by rw [hlat, hn]; rfl, fun s hs hfc => by rw [hlat, hs]; exact hfc⟩,
    ⟨fun hn => by rw [hlon, hn]; rfl, fun s hs hfc => by rw [hlon, hs]; exact hfc⟩,
    ⟨fun hn => by rw [hdnm, hn]; rfl, fun s hs hfc => by rw [hdnm, hs]; exact hfc⟩,
    ⟨fun hn => by rw [hhd, hn]; rfl, fun s hs hfc => by rw [hhd, hs]; exact hfc⟩,
    ⟨fun hn => by rw [hrssi, hn]; rfl, fun s hs hfc => by rw [hrssi, hs]; exact hfc⟩,
    ⟨fun hn => by rw [hage, hn]; rfl, fun s hs hfc => by rw [hage, hs]; exact hfc⟩,
    ⟨fun hn => by rw [halt, hn]; rfl, fun s hs hfc => by rw [halt, hs]; exact hfc⟩,
    ⟨fun hn => by rw [hspd, hn]; rfl, fun s hs hfc => by rw [hspd, hs]; exact hfc⟩,
    ⟨fun hn => by rw [hvr, hn]; rfl, fun s hs hfc => by rw [hvr, hs]; exact hfc⟩,
    ⟨fun hn => by rw [hmsg, hn]; rfl, fun s hs hfc => by rw [hmsg, hs]; exact hfc⟩,
    ⟨fun hn => by rw [hfl]; exact strField_absent hn,
      fun s hs ht => by rw [hfl]; exact strField_trimEmpty hs ht,
      by rw [hfl]; exact strField_ne_empty r "Ident"⟩,
    ⟨fun hn => by rw [hair]; exact strField_absent hn,
      fun s hs ht => by rw [hair]; exact strField_trimEmpty hs ht,
      by rw [hair]; exact strField_ne_empty r "Airline"⟩,
    ⟨fun hn => by rw [hreg]; exact strField_absent hn,
      fun s hs ht => by rw [hreg]; exact strField_trimEmpty hs ht,
      by rw [hreg]; exact strField_ne_empty r "Registration"⟩,
    ⟨fun hn => by rw [htyp]; exact strField_absent hn,
      fun s hs ht => by rw [htyp]; exact strField_trimEmpty hs ht,
      by rw [htyp]; exact strField_ne_empty r "Aircraft_Type"⟩,
    ⟨fun hn => by rw [hdq]; exact strField_absent hn,
      fun s hs ht => by rw [hdq]; exact strField_trimEmpty hs ht,
      by rw [hdq]; exact strField_ne_empty r "Data_Quality"⟩,
    hicao⟩

/-- Witness for **C8**: the record with a `null` latitude transforms
with a `null` latitude. -/
theorem transform_null_coercion_policy_witness : nullishRow.latitude = none :=
  (transform_null_coercion_policy nowSample nullishRaw nullishRow (by decide)).1.1 rfl

theorem migrateStep_run (now : DateTime) (failf : Nat → Bool) (bs : Nat)
    (p : MigProgress) (file : Except Unit JVal) (h1 : load_json_file file ≠ [])
    (h2 : (load_json_file file).filterMap (transformElem now) ≠ []) :
    migrateStep now failf bs p file
      = { store := (batch_insert failf p.store
            ((load_json_file file).filterMap (transformElem now)) bs).1
          total_records := p.total_records + (load_json_file file).length
          total_inserted := p.total_inserted + (batch_insert failf p.store
            ((load_json_file file).filterMap (transformElem now)) bs).2 } := by
  unfold migrateStep
  rw [if_neg (by simpa [List.isEmpty_iff] using h1),
    if_neg (by simpa [List.isEmpty_iff] using h2)]

/-- **C9** (counterexample). A source file that loads exactly one
record, none of which transforms (its position time is the number `5`),
is skipped before the counters are touched: the run ends with
`records_loaded = 0`, not the `1` the claim requires for every file
that loads at least one record. -/
theorem migrate_skips_loaded_counter :
    (load_json_file (.ok (.arr [.obj [("Position_Time", .int 5)]]))).length = 1
    ∧ (migrate_files nowSample (fun _ _ => false)
        [.ok (.arr [.obj [("Position_Time", .int 5)]])] 1000 none []).total_records = 0
    ∧ (migrate_files nowSample (fun _ _ => false)
        [.ok (.arr [.obj [("Position_Time", .int 5)]])] 1000 none []).total_inserted = 0 := by
  refine ⟨rfl, by decide, by decide⟩

set_option maxRecDepth 40000 in
/-- **C9** (amended). For every source file with at least one loaded
record *and* at least one transformable record, the driver adds the
loaded count to `records_loaded` and the batch write's return value to
`records_inserted`, regardless of chunk outcomes; a file where every
record fails to transform is skipped before either counter moves. The
scenario holds: a 1000-record source written as two batches of 500
whose second batch fails ends with `records_loaded = 1000` and
`records_inserted = 500`. -/
theorem migrate_counters_per_file :
    (∀ (now : DateTime) (fail : Nat → Nat → Bool) (files : List (Except Unit JVal))
        (f1 : Except Unit JVal) (bs : Nat) (s0 : Store),
      load_json_file f1 ≠ [] →
      (load_json_file f1).filterMap (transformElem now) ≠ [] →
      (migrate_files now fail (files ++ [f1]) bs none s0).total_records
          = (migrate_files now fail files bs none s0).total_records
            + (load_json_file f1).length
        ∧ (migrate_files now fail (files ++ [f1]) bs none s0).total_inserted
          = (migrate_files now fail files bs none s0).total_inserted
            + (batch_insert (fail files.length)
                (migrate_files now fail files bs none s0).store
                ((load_json_file f1).filterMap (transformElem now)) bs).2)
    ∧ (migrate_files nowSample scnFail [scnFile] 500 none []).total_records = 1000
    ∧ (migrate_files nowSample scnFail [scnFile] 500 none []).total_inserted = 500 := by
  refine ⟨?_, ?_, ?_⟩
  · intro now fail files f1 bs s0 h1 h2
    show (migrateFilesAux now fail bs 0 ⟨s0, 0, 0⟩ (files ++ [f1])).total_records = _
      ∧ (migrateFilesAux now fail bs 0 ⟨s0, 0, 0⟩ (files ++ [f1])).total_inserted = _
    rw [migrateFilesAux_append now fail bs files f1 0 ⟨s0, 0, 0⟩, Nat.zero_add,
      migrateStep_run now (fail files.length) bs _ f1 h1 h2]
    exact ⟨rfl, rfl⟩
  · have hload : load_json_file scnFile = List.replicate 1000 (JVal.obj scnRaw) := rfl
    have h1 : load_json_file scnFile ≠ [] := by
      rw [hload]
      intro heq
      have hlen := congrArg List.length heq
      rw [List.length_replicate] at hlen
      exact absurd hlen (by decide)
    have htrans : (load_json_file scnFile).filterMap (transformElem nowSample)
        = List.replicate 1000 scnRow :=
      filterMap_replicate_some (transformElem nowSample) (.obj scnRaw) scnRow (by decide) 1000
    have h2 : (load_json_file scnFile).filterMap (transformElem nowSample) ≠ [] := by
      rw [htrans]
      intro heq
      have hlen := congrArg List.length heq
      rw [List.length_replicate] at hlen
      exact absurd hlen (by decide)
    have hrun : migrate_files nowSample scnFail [scnFile] 500 none []
        = migrateStep nowSample (scnFail 0) 500 ⟨[], 0, 0⟩ scnFile := rfl
    rw [hrun, migrateStep_run nowSample (scnFail 0) 500 ⟨[], 0, 0⟩ scnFile h1 h2]
    show 0 + (load_json_file scnFile).length = 1000
    rw [hload, List.length_replicate]
  · have hload : load_json_file scnFile = List.replicate 1000 (JVal.obj scnRaw) := rfl
    have h1 : load_json_file scnFile ≠ [] := by
      rw [hload]
      intro heq
      have hlen := congrArg List.length heq
      rw [List.length_replicate] at hlen
      exact absurd hlen (by decide)
    have htrans : (load_json_file scnFile).filterMap (transformElem nowSample)
        = List.replicate 1000 scnRow :=
      filterMap_replicate_some (transformElem nowSample) (.obj scnRaw) scnRow (by decide) 1000
    have h2 : (load_json_file scnFile).filterMap (transformElem nowSample) ≠ [] := by
      rw [htrans]
      intro heq
      have hlen := congrArg List.length heq
      rw [List.length_replicate] at hlen
      exact absurd hlen (by decide)
    have hrun : migrate_files nowSample scnFail [scnFile] 500 none []
        = migrateStep nowSample (scnFail 0) 500 ⟨[], 0, 0⟩ scnFile := rfl
    rw [hrun, migrateStep_run nowSample (scnFail 0) 500 ⟨[], 0, 0⟩ scnFile h1 h2]
    show 0 + (batch_insert (scnFail 0) []
        ((load_json_file scnFile).filterMap (transformElem nowSample)) 500).2 = 500
    rw [htrans]
    rw [congrArg Prod.snd (batch_insert_eq (scnFail 0) [] (List.replicate 1000 scnRow) 500)]
    have hsplit : List.replicate 1000 scnRow
        = List.replicate 500 scnRow ++ List.replicate 500 scnRow := by
      rw [← List.replicate_add]
    have h500 : chunkList 500 (List.replicate 500 scnRow) = [List.replicate 500 scnRow] := by
      have h0 := chunkList_append_exact 500 (by decide) (List.replicate 500 scnRow)
        ([] : List CanonicalRecord) (by simp)
      simpa using h0
    rw [hsplit, chunkList_append_exact 500 (by decide) _ _ (by simp), h500]
    show (if scnFail 0 0 then 0 else (List.replicate 500 scnRow).length)
        + ((if scnFail 0 1 then 0 else (List.replicate 500 scnRow).length) + 0) = 500
    simp [scnFail]

/-- Witness for **C9** (amended): appending a one-mapping file to an
empty run raises `records_loaded` by that file's loaded count. -/
theorem migrate_counters_per_file_witness :
    (migrate_files nowSample (fun _ _ => false) ([] ++ [Except.ok (.obj scnRaw)]) 3 none
        []).total_records
      = (migrate_files nowSample (fun _ _ => false) ([] : List (Except Unit JVal)) 3 none
          []).total_records + (load_json_file (.ok (.obj scnRaw))).length :=
  (migrate_counters_per_file.1 nowSample (fun _ _ => false) [] (.ok (.obj scnRaw)) 3 []
    (List.cons_ne_nil _ _) (by decide)).1

/-- Witness for **C10**: the truncation conjunct applied at `3/2`. -/
theorem safe_int_truncates_floats_witness :
    safe_int (.float (mkRat 3 2)) = some (ratTrunc (mkRat 3 2)) :=
  safe_int_truncates_floats.2.2.2.2.1 (mkRat 3 2)
